import Mathlib

/-!
Shallow embedding of the `prgpt` pull-request summarizer (Go).

The repository contains three revisions of the same single-file program:
  * version A: `src/main.go`
  * version B: first program in `src/unnamed/part_000` (lines 1-109)
  * version C: second program in `src/unnamed/part_000` (lines 110-361)

The program shells out to git, optionally sends text to local Ollama
endpoints and to the Anthropic messages API, and prints a Markdown report.
All external collaborators (subprocesses, the three HTTP endpoints, and the
Go standard library serialization of the embedding vector) are modelled as
an explicit environment `Env`; Go `float64` values are modelled as real
numbers, with a separate IEEE-style division model for the
division-by-zero behaviour.
-/

/-- JSON values, used to model response bodies of the Anthropic API. -/
inductive Json where
  | null : Json
  | bool (b : Bool) : Json
  | num (q : ℚ) : Json
  | str (s : String) : Json
  | arr (xs : List Json) : Json
  | obj (kvs : List (String × Json)) : Json

/-- Raw HTTP response body: either bytes that do not parse as JSON, or a
parsed JSON value. `json.Unmarshal` on a `malformed` body reports an error. -/
inductive Body where
  | malformed : Body
  | json (j : Json) : Body

/-- Field lookup in a JSON object. Go `encoding/json` keeps the last
occurrence of a duplicated key, hence the reversed search. -/
def Json.lookupField (kvs : List (String × Json)) (k : String) : Option Json :=
  (kvs.reverse.find? (fun p => p.1 == k)).map (fun p => p.2)

/-- Go semantics of unmarshaling one element of the `content` array into the
one-field struct holding Text, of version C (part_000 lines 345-349): a JSON
object takes its `text` field when it is a string, a missing field leaves
the zero value `""`, `null` leaves the zero struct, and any other shape is
an unmarshal error (`none`). -/
def unmarshalText (j : Json) : Option String :=
  match j with
  | .obj kvs =>
      match Json.lookupField kvs "text" with
      | some (.str s) => some s
      | some .null => some ""
      | some _ => none
      | none => some ""
  | .null => some ""
  | _ => none

/-- Go semantics of unmarshaling a response body into the struct
holding the Content slice of Text records, of version C (part_000 lines
345-354), returning the list of `text` fields. A missing or `null`
`content` field leaves the nil slice; a non-array `content`, or a
non-object top level, is an unmarshal error (`none`). -/
def unmarshalContentList (j : Json) : Option (List String) :=
  match j with
  | .obj kvs =>
      match Json.lookupField kvs "content" with
      | some (.arr xs) => xs.mapM unmarshalText
      | some .null => some []
      | some _ => none
      | none => some []
  | .null => some []
  | _ => none

/-- Versions A and B extract the summary from the untyped decoding
into a map from strings to arbitrary values (main.go lines 92-102,
part_000 lines 98-108).
The unmarshal error is ignored, so a malformed body leaves a nil map and
falls through to the fallback. The inner map type assertion on the first
content element is unchecked: a first element that is not an object
panics, modelled as `none`. -/
def extractSummaryUntyped (body : Body) : Option String :=
  match body with
  | .malformed => some "Unable to generate summary"
  | .json j =>
    match j with
    | .obj kvs =>
        match Json.lookupField kvs "content" with
        | some (.arr (x :: _)) =>
            match x with
            | .obj kvs2 =>
                match Json.lookupField kvs2 "text" with
                | some (.str t) => some t
                | _ => some "Unable to generate summary"
            | _ => none
        | _ => some "Unable to generate summary"
    | _ => some "Unable to generate summary"

/-- Sum of squares of a vector, as the accumulator loop of
`processEmbeddings` (part_000 lines 236-239) computes it. -/
noncomputable def sumSquares (v : List ℝ) : ℝ :=
  v.foldl (fun acc x => acc + x * x) 0

/-- Euclidean magnitude `math.Sqrt(sum of squares)` from
`processEmbeddings` (part_000 line 240). -/
noncomputable def magnitude (v : List ℝ) : ℝ :=
  Real.sqrt (sumSquares v)

/-- Normalization loop of `processEmbeddings` (part_000 lines 242-246):
every element is divided by the magnitude, with ideal real division. -/
noncomputable def normalizeEmbeddings (v : List ℝ) : List ℝ :=
  v.map (fun x => x / magnitude v)

/-- Result of a Go `float64` division: either a finite value or one of the
IEEE non-finite outcomes produced by dividing by zero. -/
inductive GoFloat where
  | finite (x : ℝ) : GoFloat
  | posInf : GoFloat
  | negInf : GoFloat
  | nan : GoFloat

/-- Finiteness of a division result. -/
def GoFloat.isFinite : GoFloat → Bool
  | .finite _ => true
  | .posInf => false
  | .negInf => false
  | .nan => false

/-- IEEE-754 semantics of the Go division `v / magnitude` on real operands:
`0/0` is NaN, `x/0` for nonzero `x` is a signed infinity, and the division
is exact otherwise. -/
noncomputable def goDiv (x m : ℝ) : GoFloat :=
  if m = 0 then
    if x = 0 then .nan
    else if 0 < x then .posInf
    else .negInf
  else .finite (x / m)

/-- Normalization loop of `processEmbeddings` (part_000 lines 242-246) with
IEEE division semantics, exposing the unguarded division by a zero
magnitude. The source checks nothing before dividing. -/
noncomputable def normalizeIEEE (v : List ℝ) : List GoFloat :=
  v.map (fun x => goDiv x (magnitude v))

/-- Auxiliary for `trimSpace`: drop leading whitespace from a character
list. -/
def dropWs : List Char → List Char
  | [] => []
  | c :: cs => if c.isWhitespace then dropWs cs else c :: cs

/-- Go `strings.TrimSpace`, applied by `getCommandOutput` to every command
output: remove leading and trailing whitespace. -/
def trimSpace (s : String) : String :=
  ⟨dropWs (dropWs s.data.reverse).reverse⟩

/-- Go `strings.TrimPrefix`: drop `pre` from the front of `s` when present,
otherwise return `s` unchanged. -/
def trimPre (s pre : String) : String :=
  if pre.data.isPrefixOf s.data then ⟨s.data.drop pre.data.length⟩ else s

/-- External world of one program run: subprocess outputs (`none` models a
spawn failure or non-zero exit of `cmd.Output()`), the command-line
arguments after the program name, the two local Ollama endpoints, the
Anthropic messages endpoint (`none` models a network error of
`client.Do`), and the byte-level `json.Marshal` plus base64 encoding of a
float vector performed by the Go standard library. -/
structure Env where
  runCmd : String → List String → Option String
  args : List String
  ollamaGenerate : String → Except String String
  ollamaEmbed : String → Except String (List ℝ)
  anthropic : String → Option Body
  encodeEmb : List ℝ → String

/-- The command runner `getCommandOutput` (main.go lines 58-66, identical in
both part_000 revisions): on failure it prints the error and calls
`os.Exit(1)`, modelled as `Except.error` carrying the printed log lines and
the exit code; on success it returns the trimmed standard output. -/
def getCommandOutput (env : Env) (name : String) (args : List String) :
    Except (List String × Nat) String :=
  match env.runCmd name args with
  | none => .error (["Error executing command"], 1)
  | some out => .ok (trimSpace out)

/-- Prompt of the version A and B `getAnthropicSummary` (main.go line 69). -/
def summarizePromptB (content : String) : String :=
  "Summarize the following Git commits and changes overview:\n\n" ++ content ++
    "\n\nProvide a concise summary of the changes:"

/-- Prompt built by `compressLogs` (part_000 lines 256-261). -/
def compressPrompt (content : String) : String :=
  "Compress and summarize the following git changes into a concise but informative format, \npreserving the most important technical details:\n\n"
    ++ content ++ "\n\nCompressed summary:"

/-- Prompt of the version C `getAnthropicSummary` (part_000 lines 307-317). -/
def summaryPromptC (processedEmbeddings compressedContent content : String) : String :=
  "Here are the Git changes with their semantic embeddings:\n\nEmbeddings: "
    ++ processedEmbeddings ++ "\n\nCompressed Changes:\n" ++ compressedContent
    ++ "\n\nOriginal Content Summary:\n" ++ content
    ++ "\n\nBased on these changes, provide a concise summary of the modifications:"

/-- The `compressLogs` call of version C (part_000 lines 255-284): builds
the compression prompt and posts it to the local generation endpoint. -/
def compressLogs (env : Env) (content : String) : Except String String :=
  env.ollamaGenerate (compressPrompt content)

/-- The `getEmbeddings` call of version C (part_000 lines 210-231): posts
the text to the local embedding endpoint. -/
def getEmbeddings (env : Env) (text : String) : Except String (List ℝ) :=
  env.ollamaEmbed text

/-- Version C `processEmbeddings` (part_000 lines 234-251): normalizes the
embedding vector and serializes it (Go `json.Marshal` followed by
`base64.StdEncoding.EncodeToString`, modelled by `Env.encodeEmb`). -/
noncomputable def processEmbeddings (env : Env) (embeddings : List ℝ) : String :=
  env.encodeEmb (normalizeEmbeddings embeddings)

/-- Version A and B `getAnthropicSummary` (main.go lines 68-103, part_000
lines 74-109): posts the prompt; a network error prints a message and
returns the fallback; otherwise the body is decoded untyped. `none` models
the panic of the unchecked type assertion. The result pairs the returned
summary with the lines printed during the call. -/
def getAnthropicSummaryB (env : Env) (content : String) :
    Option (String × List String) :=
  match env.anthropic (summarizePromptB content) with
  | none => some ("Unable to generate summary", ["Error calling Anthropic API:"])
  | some body =>
    match extractSummaryUntyped body with
    | none => none
    | some t => some (t, [])

/-- Steps of the version C `getAnthropicSummary` after the compression
stage (part_000 lines 297-360): embeddings, their processing, the prompt,
the Anthropic call, the debug print of the response body, and the typed
decoding. The result pairs the summary with the printed lines. -/
noncomputable def afterCompressC (env : Env) (content compressedContent : String) :
    String × List String :=
  match getEmbeddings env compressedContent with
  | .error e => ("Unable to generate summary", ["Error getting embeddings: " ++ e])
  | .ok embeddings =>
    let processedEmbeddings := processEmbeddings env embeddings
    let prompt := summaryPromptC processedEmbeddings compressedContent content
    match env.anthropic prompt with
    | none => ("Unable to generate summary", ["Error calling Anthropic API:"])
    | some body =>
      match body with
      | .malformed =>
          ("Unable to generate summary",
            ["Anthropic API Response:", "Error unmarshaling response:"])
      | .json j =>
        match unmarshalContentList j with
        | none =>
            ("Unable to generate summary",
              ["Anthropic API Response:", "Error unmarshaling response:"])
        | some texts =>
          match texts with
          | t :: _ => (t, ["Anthropic API Response:"])
          | [] => ("Unable to generate summary", ["Anthropic API Response:"])

/-- Version C `getAnthropicSummary` (part_000 lines 289-361): compresses
the logs first; on a compression error it prints the error and falls back
to the original content, then continues with the remaining steps. -/
noncomputable def getAnthropicSummaryC (env : Env) (content : String) :
    String × List String :=
  match compressLogs env content with
  | .ok compressedContent => afterCompressC env content compressedContent
  | .error e =>
    let r := afterCompressC env content content
    (r.1, ("Error compressing logs: " ++ e) :: r.2)

/-- Report template of versions A and B (main.go lines 38-53, part_000
lines 44-59). -/
def prSummaryAB (currentBranch commits changesOverview summary : String) : String :=
  "# Pull Request Summary\n\n## Branch: " ++ currentBranch ++ "\n\n## Commits:\n"
    ++ commits ++ "\n\n## Changes Overview:\n" ++ changesOverview
    ++ "\n\n## Summary:\n" ++ summary
    ++ "\n\n## Detailed Description:\n<!-- Please provide a detailed description of the changes in this PR -->\n"

/-- Report template of version C (part_000 lines 177-192); the summary
header there is a top-level `# Summary:`. -/
def prSummaryC (currentBranch commits changesOverview summary : String) : String :=
  "# Pull Request Summary\n\n## Branch: " ++ currentBranch ++ "\n\n## Commits:\n"
    ++ commits ++ "\n\n## Changes Overview:\n" ++ changesOverview
    ++ "\n\n# Summary:\n" ++ summary
    ++ "\n\n## Detailed Description:\n<!-- Please provide a detailed description of the changes in this PR -->\n"

/-- Outcome of one run of `main`: an `os.Exit` (with the printed lines, the
subprocess invocations so far and the exit code), a runtime panic of the
untyped decoding, or normal completion with the printed report. `done`
records whether the remote summarizer was invoked and which summary string
was interpolated into the report. -/
inductive RunOutcome where
  | exited (logs : List String) (cmds : List (String × List String)) (code : Nat)
  | panicked (logs : List String) (cmds : List (String × List String))
  | done (logs : List String) (cmds : List (String × List String))
      (summarizerCalled : Bool) (summaryVal : String) (report : String)

/-- Subprocess invocations issued during the run, in order. -/
def RunOutcome.cmds : RunOutcome → List (String × List String)
  | .exited _ cs _ => cs
  | .panicked _ cs => cs
  | .done _ cs _ _ _ => cs

/-- Whether the remote summarizer was invoked during the run. -/
def RunOutcome.calledSummarizer : RunOutcome → Bool
  | .done _ _ b _ _ => b
  | _ => false

/-- Summary string interpolated into the report, or `""` when the run did
not complete. -/
def RunOutcome.summaryVal : RunOutcome → String
  | .done _ _ _ s _ => s
  | _ => ""

/-- Base-branch selection of versions B and C (part_000 lines 22-26 and
158-162): the default remote branch with its `origin/` prefix stripped,
overridden by the first positional argument when one is present. -/
def chooseBase (args : List String) (originHead : String) : String :=
  match args with
  | [] => trimPre originHead "origin/"
  | a :: _ => a

/-- Version A `main` (main.go lines 18-56): queries the current branch and
the default remote branch, never consults the command-line arguments, runs
the commit log and the diff statistics, always invokes the remote
summarizer, and prints the report. -/
def mainA (env : Env) : RunOutcome :=
  let cmdHead : String × List String := ("git", ["rev-parse", "--abbrev-ref", "HEAD"])
  let cmdOrigin : String × List String := ("git", ["rev-parse", "--abbrev-ref", "origin/HEAD"])
  match getCommandOutput env "git" ["rev-parse", "--abbrev-ref", "HEAD"] with
  | .error (lg, code) => .exited lg [cmdHead] code
  | .ok currentBranch =>
  match getCommandOutput env "git" ["rev-parse", "--abbrev-ref", "origin/HEAD"] with
  | .error (lg, code) => .exited lg [cmdHead, cmdOrigin] code
  | .ok originHead =>
  let baseBranch := trimPre originHead "origin/"
  let cmdLog : String × List String :=
    ("git", ["log", baseBranch ++ ".." ++ currentBranch, "--pretty=format:%h - %s"])
  let cmdStat : String × List String :=
    ("git", ["diff", "--stat", baseBranch ++ ".." ++ currentBranch])
  match getCommandOutput env "git"
      ["log", baseBranch ++ ".." ++ currentBranch, "--pretty=format:%h - %s"] with
  | .error (lg, code) => .exited lg [cmdHead, cmdOrigin, cmdLog] code
  | .ok commits =>
  match getCommandOutput env "git"
      ["diff", "--stat", baseBranch ++ ".." ++ currentBranch] with
  | .error (lg, code) => .exited lg [cmdHead, cmdOrigin, cmdLog, cmdStat] code
  | .ok changesOverview =>
  let cmds := [cmdHead, cmdOrigin, cmdLog, cmdStat]
  let content := "Commits:\n" ++ commits ++ "\n\nChanges Overview:\n" ++ changesOverview
  match getAnthropicSummaryB env content with
  | none => .panicked [] cmds
  | some r =>
      .done r.2 cmds true r.1 (prSummaryAB currentBranch commits changesOverview r.1)

/-- Version B `main` (part_000 lines 18-62): like version C it reads the
optional base-branch argument and runs five git commands, but the
summarizer guard is `len(commits) > 2`: when the commit text is longer
than two bytes it only prints a message and appends the commits to the
(then unused) content, leaving the summary empty, and it invokes the
remote summarizer precisely when the commit text has at most two bytes. -/
def mainB (env : Env) : RunOutcome :=
  let cmdHead : String × List String := ("git", ["rev-parse", "--abbrev-ref", "HEAD"])
  let cmdOrigin : String × List String := ("git", ["rev-parse", "--abbrev-ref", "origin/HEAD"])
  match getCommandOutput env "git" ["rev-parse", "--abbrev-ref", "HEAD"] with
  | .error (lg, code) => .exited lg [cmdHead] code
  | .ok currentBranch =>
  match getCommandOutput env "git" ["rev-parse", "--abbrev-ref", "origin/HEAD"] with
  | .error (lg, code) => .exited lg [cmdHead, cmdOrigin] code
  | .ok originHead =>
  let baseBranch := chooseBase env.args originHead
  let cmdLog : String × List String :=
    ("git", ["log", baseBranch ++ ".." ++ currentBranch, "--pretty=format:%h - %s"])
  let cmdDiff : String × List String :=
    ("git", ["diff", baseBranch ++ ".." ++ currentBranch])
  let cmdStat : String × List String :=
    ("git", ["diff", "--stat", baseBranch ++ ".." ++ currentBranch])
  match getCommandOutput env "git"
      ["log", baseBranch ++ ".." ++ currentBranch, "--pretty=format:%h - %s"] with
  | .error (lg, code) => .exited lg [cmdHead, cmdOrigin, cmdLog] code
  | .ok commits =>
  match getCommandOutput env "git" ["diff", baseBranch ++ ".." ++ currentBranch] with
  | .error (lg, code) => .exited lg [cmdHead, cmdOrigin, cmdLog, cmdDiff] code
  | .ok detailedDiff =>
  match getCommandOutput env "git"
      ["diff", "--stat", baseBranch ++ ".." ++ currentBranch] with
  | .error (lg, code) => .exited lg [cmdHead, cmdOrigin, cmdLog, cmdDiff, cmdStat] code
  | .ok changesOverview =>
  let cmds := [cmdHead, cmdOrigin, cmdLog, cmdDiff, cmdStat]
  let content := "Detailed Changes:\n" ++ detailedDiff ++ "\n\nChanges Overview:\n"
    ++ changesOverview
  if 2 < commits.utf8ByteSize then
    -- content is reassigned to include the commits here in the source, but
    -- the variable is never read again before the report is built.
    .done ["Printing out content"] cmds false ""
      (prSummaryAB currentBranch commits changesOverview "")
  else
    match getAnthropicSummaryB env content with
    | none => .panicked [] cmds
    | some r =>
        .done r.2 cmds true r.1 (prSummaryAB currentBranch commits changesOverview r.1)

/-- Version C `main` (part_000 lines 154-195): reads the optional
base-branch argument, runs five git commands, invokes the remote
summarizer exactly when the commit text is non-empty, and prints the
report with the `# Summary:` header. -/
noncomputable def mainC (env : Env) : RunOutcome :=
  let cmdHead : String × List String := ("git", ["rev-parse", "--abbrev-ref", "HEAD"])
  let cmdOrigin : String × List String := ("git", ["rev-parse", "--abbrev-ref", "origin/HEAD"])
  match getCommandOutput env "git" ["rev-parse", "--abbrev-ref", "HEAD"] with
  | .error (lg, code) => .exited lg [cmdHead] code
  | .ok currentBranch =>
  match getCommandOutput env "git" ["rev-parse", "--abbrev-ref", "origin/HEAD"] with
  | .error (lg, code) => .exited lg [cmdHead, cmdOrigin] code
  | .ok originHead =>
  let baseBranch := chooseBase env.args originHead
  let cmdLog : String × List String :=
    ("git", ["log", baseBranch ++ ".." ++ currentBranch, "--pretty=format:%h - %s"])
  let cmdDiff : String × List String :=
    ("git", ["diff", baseBranch ++ ".." ++ currentBranch])
  let cmdStat : String × List String :=
    ("git", ["diff", "--stat", baseBranch ++ ".." ++ currentBranch])
  match getCommandOutput env "git"
      ["log", baseBranch ++ ".." ++ currentBranch, "--pretty=format:%h - %s"] with
  | .error (lg, code) => .exited lg [cmdHead, cmdOrigin, cmdLog] code
  | .ok commits =>
  match getCommandOutput env "git" ["diff", baseBranch ++ ".." ++ currentBranch] with
  | .error (lg, code) => .exited lg [cmdHead, cmdOrigin, cmdLog, cmdDiff] code
  | .ok detailedDiff =>
  match getCommandOutput env "git"
      ["diff", "--stat", baseBranch ++ ".." ++ currentBranch] with
  | .error (lg, code) => .exited lg [cmdHead, cmdOrigin, cmdLog, cmdDiff, cmdStat] code
  | .ok changesOverview =>
  let cmds := [cmdHead, cmdOrigin, cmdLog, cmdDiff, cmdStat]
  let content := "Detailed Changes:\n" ++ detailedDiff ++ "\n\nChanges Overview:\n"
    ++ changesOverview
  if 0 < commits.utf8ByteSize then
    let r := getAnthropicSummaryC env content
    .done r.2 cmds true r.1 (prSummaryC currentBranch commits changesOverview r.1)
  else
    .done [] cmds false "" (prSummaryC currentBranch commits changesOverview "")

/-- Whether the run reached the report print at the end of `main`. -/
def RunOutcome.isDone : RunOutcome → Bool
  | .done _ _ _ _ _ => true
  | _ => false

/-- Response body of the shape with one content segment holding `text` X:
a JSON object whose `content` field is a one-element array of an object
whose `text` field is the string X. -/
def contentTextBody (X : String) : Body :=
  Body.json (Json.obj [("content", Json.arr [Json.obj [("text", Json.str X)]])])

/-- Environment in which every git command succeeds, the `git log` command
prints nothing (no commits between the branches), no positional argument
is given, and the remote API would answer with a malformed body. -/
def envNoCommits : Env where
  runCmd := fun _ args => if args.head? = some "log" then some "" else some "main"
  args := []
  ollamaGenerate := fun _ => Except.error "no local model"
  ollamaEmbed := fun _ => Except.ok []
  anthropic := fun _ => some Body.malformed
  encodeEmb := fun _ => ""

/-- Environment in which every subprocess fails to produce output. -/
def envCmdFail : Env where
  runCmd := fun _ _ => none
  args := []
  ollamaGenerate := fun _ => Except.error "down"
  ollamaEmbed := fun _ => Except.ok []
  anthropic := fun _ => none
  encodeEmb := fun _ => ""

/-- Environment whose remote API always answers with the body holding the
single content segment `X`. -/
def envTextX : Env where
  runCmd := fun _ _ => some ""
  args := []
  ollamaGenerate := fun s => Except.ok s
  ollamaEmbed := fun _ => Except.ok []
  anthropic := fun _ => some (contentTextBody "X")
  encodeEmb := fun _ => ""

/-- Environment whose remote API always answers with a malformed body and
whose git commands all succeed. -/
def envMalformed : Env where
  runCmd := fun _ _ => some "x"
  args := []
  ollamaGenerate := fun s => Except.ok s
  ollamaEmbed := fun _ => Except.ok []
  anthropic := fun _ => some Body.malformed
  encodeEmb := fun _ => ""

/-- Environment in which the local compression endpoint fails. -/
def envCompressFail : Env where
  runCmd := fun _ _ => some ""
  args := []
  ollamaGenerate := fun _ => Except.error "boom"
  ollamaEmbed := fun _ => Except.ok []
  anthropic := fun _ => none
  encodeEmb := fun _ => ""

/-- Environment with one positional argument `other`, a current branch
`feat` and a default remote branch `origin/main`. -/
def envArgIgnored : Env where
  runCmd := fun _ args =>
    if args.head? = some "rev-parse" then
      if args.getLast? = some "origin/HEAD" then some "origin/main" else some "feat"
    else some ""
  args := ["other"]
  ollamaGenerate := fun _ => Except.error "down"
  ollamaEmbed := fun _ => Except.ok []
  anthropic := fun _ => some Body.malformed
  encodeEmb := fun _ => ""

/-- Environment with one positional argument `dev` and every git command
answering `out`. -/
def envArgUsed : Env where
  runCmd := fun _ _ => some "out"
  args := ["dev"]
  ollamaGenerate := fun _ => Except.error "down"
  ollamaEmbed := fun _ => Except.ok []
  anthropic := fun _ => some Body.malformed
  encodeEmb := fun _ => ""

theorem sumSquares_foldl (v : List ℝ) (a : ℝ) :
    v.foldl (fun acc x => acc + x * x) a = a + (v.map fun x => x * x).sum := by
  induction v generalizing a with
  | nil => simp
  | cons x xs ih => simp [ih, add_assoc]

theorem sumSquares_eq_sum_map (v : List ℝ) :
    sumSquares v = (v.map fun x => x * x).sum := by
  simpa using sumSquares_foldl v 0

theorem sumSquares_nonneg (v : List ℝ) : 0 ≤ sumSquares v := by
  rw [sumSquares_eq_sum_map]
  apply List.sum_nonneg
  intro x hx
  obtain ⟨y, hy, rfl⟩ := List.mem_map.mp hx
  exact mul_self_nonneg y

theorem magnitude_mul_self (v : List ℝ) :
    magnitude v * magnitude v = sumSquares v :=
  Real.mul_self_sqrt (sumSquares_nonneg v)

theorem sumSquares_ne_zero (v : List ℝ) (h : magnitude v ≠ 0) :
    sumSquares v ≠ 0 := by
  intro h0
  exact h (by simp [magnitude, h0])

/-- C2: for every vector of numbers with nonzero Euclidean magnitude, the
vector produced by the normalization step of `processEmbeddings` (each
element divided by the square root of the sum of squares) has Euclidean
norm exactly 1. Go `float64` arithmetic is modelled by exact real
arithmetic, so the tolerance of the claim is met exactly. -/
theorem c2_normalized_unit_norm (v : List ℝ) (h : magnitude v ≠ 0) :
    magnitude (normalizeEmbeddings v) = 1 := by
  have hsum : sumSquares (normalizeEmbeddings v) = 1 := by
    rw [sumSquares_eq_sum_map, normalizeEmbeddings, List.map_map]
    have hfun : ((fun x => x * x) ∘ fun x => x / magnitude v)
        = fun x => (x * x) * (magnitude v * magnitude v)⁻¹ := by
      funext x
      simp only [Function.comp_apply]
      ring
    rw [hfun, List.sum_map_mul_right, ← sumSquares_eq_sum_map,
      magnitude_mul_self]
    exact mul_inv_cancel₀ (sumSquares_ne_zero v h)
  rw [magnitude, hsum, Real.sqrt_one]

/-- Witness for C2 at the vector (3, 4), whose magnitude is 5. -/
theorem c2_unit_norm_at_three_four :
    magnitude [(3 : ℝ), 4] ≠ 0 ∧ magnitude (normalizeEmbeddings [(3 : ℝ), 4]) = 1 := by
  have hS : sumSquares [(3 : ℝ), 4] = 25 := by
    norm_num [sumSquares]
  have hpos : (0 : ℝ) < magnitude [(3 : ℝ), 4] := by
    rw [magnitude, hS]
    exact Real.sqrt_pos.mpr (by norm_num)
  exact ⟨ne_of_gt hpos, c2_normalized_unit_norm _ (ne_of_gt hpos)⟩

/-- C7: the all-zero vector has magnitude zero, and the unguarded division
in `processEmbeddings` then produces only non-finite values (NaN for each
zero element) in the normalized sequence. -/
theorem c7_zero_vector_nonfinite :
    magnitude [(0 : ℝ), 0] = 0 ∧
      normalizeIEEE [(0 : ℝ), 0] = [GoFloat.nan, GoFloat.nan] ∧
      (normalizeIEEE [(0 : ℝ), 0]).all GoFloat.isFinite = false := by
  have hS : sumSquares [(0 : ℝ), 0] = 0 := by
    norm_num [sumSquares]
  have hmag : magnitude [(0 : ℝ), 0] = 0 := by
    rw [magnitude, hS, Real.sqrt_zero]
  have heq : normalizeIEEE [(0 : ℝ), 0] = [GoFloat.nan, GoFloat.nan] := by
    simp [normalizeIEEE, hmag, goDiv]
  exact ⟨hmag, heq, by rw [heq]; rfl⟩

/-- C10: the normalized sequence built by `processEmbeddings` has exactly
the length of the input, and its i-th element is the i-th input element
divided by the overall magnitude, hence depends on nothing else. -/
theorem c10_normalize_pointwise (v : List ℝ) (i : ℕ) (h : i < v.length) :
    (normalizeEmbeddings v).length = v.length ∧
      (normalizeEmbeddings v).get ⟨i, by simpa [normalizeEmbeddings] using h⟩
        = v.get ⟨i, h⟩ / magnitude v := by
  constructor
  · simp [normalizeEmbeddings]
  · simp [normalizeEmbeddings]

/-- Witness for C10 at the vector (3, 4) and index 0. -/
theorem c10_pointwise_at_three_four :
    (normalizeEmbeddings [(3 : ℝ), 4]).length = 2 ∧
      (normalizeEmbeddings [(3 : ℝ), 4]).get ⟨0, by simp [normalizeEmbeddings]⟩
        = 3 / magnitude [(3 : ℝ), 4] := by
  have h : (0 : ℕ) < ([(3 : ℝ), 4] : List ℝ).length := by norm_num
  exact ⟨(c10_normalize_pointwise [(3 : ℝ), 4] 0 h).1,
    (c10_normalize_pointwise [(3 : ℝ), 4] 0 h).2⟩

/-- C6: for every branch name, commit list, change statistics, and summary
text, the printed report contains the literal section headers
`## Branch:`, `## Commits:`, `## Changes Overview:` and a summary-section
header, in that fixed order, in both report templates (version C uses
`# Summary:`, versions A and B use `## Summary:`). -/
theorem c6_report_headers_in_order (br commits co summary : String) :
    (∃ a b c d e : String,
        prSummaryC br commits co summary =
          a ++ "## Branch:" ++ b ++ "## Commits:" ++ c ++ "## Changes Overview:"
            ++ d ++ "# Summary:" ++ e) ∧
      (∃ a b c d e : String,
        prSummaryAB br commits co summary =
          a ++ "## Branch:" ++ b ++ "## Commits:" ++ c ++ "## Changes Overview:"
            ++ d ++ "## Summary:" ++ e) := by
  have h0 : ("# Pull Request Summary\n\n## Branch: " : String)
      = "# Pull Request Summary\n\n" ++ "## Branch:" ++ " " := rfl
  have h1 : ("\n\n## Commits:\n" : String) = "\n\n" ++ "## Commits:" ++ "\n" := rfl
  have h2 : ("\n\n## Changes Overview:\n" : String)
      = "\n\n" ++ "## Changes Overview:" ++ "\n" := rfl
  have h3 : ("\n\n# Summary:\n" : String) = "\n\n" ++ "# Summary:" ++ "\n" := rfl
  have h3ab : ("\n\n## Summary:\n" : String) = "\n\n" ++ "## Summary:" ++ "\n" := rfl
  constructor
  · refine ⟨"# Pull Request Summary\n\n", " " ++ br ++ "\n\n", "\n" ++ commits ++ "\n\n",
      "\n" ++ co ++ "\n\n",
      "\n" ++ summary ++ "\n\n## Detailed Description:\n<!-- Please provide a detailed description of the changes in this PR -->\n", ?_⟩
    simp only [prSummaryC]
    rw [h0, h1, h2, h3]
    simp only [String.append_assoc]
  · refine ⟨"# Pull Request Summary\n\n", " " ++ br ++ "\n\n", "\n" ++ commits ++ "\n\n",
      "\n" ++ co ++ "\n\n",
      "\n" ++ summary ++ "\n\n## Detailed Description:\n<!-- Please provide a detailed description of the changes in this PR -->\n", ?_⟩
    simp only [prSummaryAB]
    rw [h0, h1, h2, h3ab]
    simp only [String.append_assoc]

theorem getCommandOutput_error_shape (env : Env) (name : String)
    (args : List String) (lg : List String) (code : Nat)
    (h : getCommandOutput env name args = Except.error (lg, code)) :
    code = 1 ∧ lg = ["Error executing command"] := by
  unfold getCommandOutput at h
  split at h
  · rw [Except.error.injEq, Prod.mk.injEq] at h
    exact ⟨h.2.symm, h.1.symm⟩
  · cases h

theorem getCommandOutput_ok (env : Env) (name : String) (args : List String)
    (o : String) (h : env.runCmd name args = some o) :
    getCommandOutput env name args = Except.ok (trimSpace o) := by
  unfold getCommandOutput
  rw [h]

theorem mainC_exit_shape (env : Env) (logs : List String)
    (cmds : List (String × List String)) (code : Nat)
    (h : mainC env = RunOutcome.exited logs cmds code) :
    code = 1 ∧ logs = ["Error executing command"] := by
  unfold mainC at h
  rcases h1 : getCommandOutput env "git" ["rev-parse", "--abbrev-ref", "HEAD"]
    with p | o1 <;> simp only [h1] at h
  · obtain ⟨lg, cd⟩ := p
    obtain ⟨hc, hl⟩ := getCommandOutput_error_shape env _ _ lg cd h1
    rw [RunOutcome.exited.injEq] at h
    exact ⟨h.2.2.symm.trans hc, h.1.symm.trans hl⟩
  rcases h2 : getCommandOutput env "git" ["rev-parse", "--abbrev-ref", "origin/HEAD"]
    with p | o2 <;> simp only [h2] at h
  · obtain ⟨lg, cd⟩ := p
    obtain ⟨hc, hl⟩ := getCommandOutput_error_shape env _ _ lg cd h2
    rw [RunOutcome.exited.injEq] at h
    exact ⟨h.2.2.symm.trans hc, h.1.symm.trans hl⟩
  rcases h3 : getCommandOutput env "git"
      ["log", chooseBase env.args o2 ++ ".." ++ o1, "--pretty=format:%h - %s"]
    with p | o3 <;> simp only [h3] at h
  · obtain ⟨lg, cd⟩ := p
    obtain ⟨hc, hl⟩ := getCommandOutput_error_shape env _ _ lg cd h3
    rw [RunOutcome.exited.injEq] at h
    exact ⟨h.2.2.symm.trans hc, h.1.symm.trans hl⟩
  rcases h4 : getCommandOutput env "git" ["diff", chooseBase env.args o2 ++ ".." ++ o1]
    with p | o4 <;> simp only [h4] at h
  · obtain ⟨lg, cd⟩ := p
    obtain ⟨hc, hl⟩ := getCommandOutput_error_shape env _ _ lg cd h4
    rw [RunOutcome.exited.injEq] at h
    exact ⟨h.2.2.symm.trans hc, h.1.symm.trans hl⟩
  rcases h5 : getCommandOutput env "git"
      ["diff", "--stat", chooseBase env.args o2 ++ ".." ++ o1]
    with p | o5 <;> simp only [h5] at h
  · obtain ⟨lg, cd⟩ := p
    obtain ⟨hc, hl⟩ := getCommandOutput_error_shape env _ _ lg cd h5
    rw [RunOutcome.exited.injEq] at h
    exact ⟨h.2.2.symm.trans hc, h.1.symm.trans hl⟩
  split at h <;> cases h

theorem mainC_eval_ok (env : Env) (o1 o2 o3 o4 o5 : String)
    (h1 : getCommandOutput env "git" ["rev-parse", "--abbrev-ref", "HEAD"]
      = Except.ok o1)
    (h2 : getCommandOutput env "git" ["rev-parse", "--abbrev-ref", "origin/HEAD"]
      = Except.ok o2)
    (h3 : getCommandOutput env "git"
        ["log", chooseBase env.args o2 ++ ".." ++ o1, "--pretty=format:%h - %s"]
      = Except.ok o3)
    (h4 : getCommandOutput env "git" ["diff", chooseBase env.args o2 ++ ".." ++ o1]
      = Except.ok o4)
    (h5 : getCommandOutput env "git"
        ["diff", "--stat", chooseBase env.args o2 ++ ".." ++ o1]
      = Except.ok o5) :
    mainC env =
      (if 0 < o3.utf8ByteSize then
        RunOutcome.done
          (getAnthropicSummaryC env
            ("Detailed Changes:\n" ++ o4 ++ "\n\nChanges Overview:\n" ++ o5)).2
          [("git", ["rev-parse", "--abbrev-ref", "HEAD"]),
           ("git", ["rev-parse", "--abbrev-ref", "origin/HEAD"]),
           ("git", ["log", chooseBase env.args o2 ++ ".." ++ o1,
             "--pretty=format:%h - %s"]),
           ("git", ["diff", chooseBase env.args o2 ++ ".." ++ o1]),
           ("git", ["diff", "--stat", chooseBase env.args o2 ++ ".." ++ o1])]
          true
          (getAnthropicSummaryC env
            ("Detailed Changes:\n" ++ o4 ++ "\n\nChanges Overview:\n" ++ o5)).1
          (prSummaryC o1 o3 o5
            (getAnthropicSummaryC env
              ("Detailed Changes:\n" ++ o4 ++ "\n\nChanges Overview:\n" ++ o5)).1)
      else
        RunOutcome.done []
          [("git", ["rev-parse", "--abbrev-ref", "HEAD"]),
           ("git", ["rev-parse", "--abbrev-ref", "origin/HEAD"]),
           ("git", ["log", chooseBase env.args o2 ++ ".." ++ o1,
             "--pretty=format:%h - %s"]),
           ("git", ["diff", chooseBase env.args o2 ++ ".." ++ o1]),
           ("git", ["diff", "--stat", chooseBase env.args o2 ++ ".." ++ o1])]
          false "" (prSummaryC o1 o3 o5 "")) := by
  unfold mainC
  simp only [h1, h2, h3, h4, h5]

theorem mainC_isDone_of_cmds_ok (env : Env)
    (hcmd : ∀ name args, (env.runCmd name args).isSome = true) :
    (mainC env).isDone = true := by
  obtain ⟨o1, h1⟩ := Option.isSome_iff_exists.mp
    (hcmd "git" ["rev-parse", "--abbrev-ref", "HEAD"])
  obtain ⟨o2, h2⟩ := Option.isSome_iff_exists.mp
    (hcmd "git" ["rev-parse", "--abbrev-ref", "origin/HEAD"])
  obtain ⟨o3, h3⟩ := Option.isSome_iff_exists.mp
    (hcmd "git" ["log", chooseBase env.args (trimSpace o2) ++ ".." ++ (trimSpace o1),
      "--pretty=format:%h - %s"])
  obtain ⟨o4, h4⟩ := Option.isSome_iff_exists.mp
    (hcmd "git" ["diff", chooseBase env.args (trimSpace o2) ++ ".." ++ (trimSpace o1)])
  obtain ⟨o5, h5⟩ := Option.isSome_iff_exists.mp
    (hcmd "git" ["diff", "--stat", chooseBase env.args (trimSpace o2) ++ ".." ++ (trimSpace o1)])
  rw [mainC_eval_ok env (trimSpace o1) (trimSpace o2) (trimSpace o3) (trimSpace o4) (trimSpace o5)
    (getCommandOutput_ok _ _ _ _ h1) (getCommandOutput_ok _ _ _ _ h2)
    (getCommandOutput_ok _ _ _ _ h3) (getCommandOutput_ok _ _ _ _ h4)
    (getCommandOutput_ok _ _ _ _ h5)]
  split <;> rfl

/-- C3: a subprocess failure (non-zero exit or spawn error, modelled as a
missing output) makes `getCommandOutput` log one error line and exit the
whole process with code 1; consequently any exit of `main` (version C)
carries exit code 1 and has printed nothing but the single error line, so
no report is produced, no retry occurs and no partial output is returned. -/
theorem c3_subprocess_failure_fatal (env : Env) (name : String)
    (args : List String) (h : env.runCmd name args = none) :
    getCommandOutput env name args
        = Except.error (["Error executing command"], 1) ∧
      ∀ logs cmds code, mainC env = RunOutcome.exited logs cmds code →
        code = 1 ∧ logs = ["Error executing command"] := by
  constructor
  · unfold getCommandOutput
    rw [h]
  · intro logs cmds code hm
    exact mainC_exit_shape env logs cmds code hm

/-- Witness for C3 in the environment where every subprocess fails. -/
theorem c3_failure_at_env :
    envCmdFail.runCmd "git" ["status"] = none ∧
      (getCommandOutput envCmdFail "git" ["status"]
          = Except.error (["Error executing command"], 1) ∧
        ∀ logs cmds code, mainC envCmdFail = RunOutcome.exited logs cmds code →
          code = 1 ∧ logs = ["Error executing command"]) :=
  ⟨rfl, c3_subprocess_failure_fatal envCmdFail "git" ["status"] rfl⟩

theorem afterCompressC_first_text (env : Env) (content cc X : String)
    (hresp : ∀ p, env.anthropic p = some (contentTextBody X))
    (hembed : ∀ s, ∃ v, env.ollamaEmbed s = Except.ok v) :
    (afterCompressC env content cc).1 = X := by
  obtain ⟨v, hv⟩ := hembed cc
  unfold afterCompressC getEmbeddings
  simp only [hv, hresp, contentTextBody]
  rfl

theorem afterCompressC_fallback (env : Env) (content cc : String) (b : Body)
    (hb : b = Body.malformed
      ∨ b = Body.json (Json.obj [("content", Json.arr [])]))
    (hresp : ∀ p, env.anthropic p = some b)
    (hembed : ∀ s, ∃ v, env.ollamaEmbed s = Except.ok v) :
    (afterCompressC env content cc).1 = "Unable to generate summary" := by
  obtain ⟨v, hv⟩ := hembed cc
  unfold afterCompressC getEmbeddings
  simp only [hv, hresp]
  rcases hb with rfl | rfl <;> rfl

/-- C4: when the remote API answers with the body holding a single content
segment whose `text` field is X (and the local services let the call reach
the remote API), the summary returned by `getAnthropicSummary` is X, in
version C (typed decoding) and in versions A and B (untyped decoding). -/
theorem c4_summary_is_first_text (env : Env) (content X : String)
    (hresp : ∀ p, env.anthropic p = some (contentTextBody X))
    (hembed : ∀ s, ∃ v, env.ollamaEmbed s = Except.ok v) :
    (getAnthropicSummaryC env content).1 = X ∧
      getAnthropicSummaryB env content = some (X, []) := by
  constructor
  · unfold getAnthropicSummaryC compressLogs
    cases hc : env.ollamaGenerate (compressPrompt content) with
    | error e => simpa using afterCompressC_first_text env content content X hresp hembed
    | ok cc => simpa using afterCompressC_first_text env content cc X hresp hembed
  · unfold getAnthropicSummaryB
    rw [hresp]
    rfl

/-- Witness for C4 in the environment whose remote API answers with the
single content segment X. -/
theorem c4_text_at_env :
    (getAnthropicSummaryC envTextX "c").1 = "X" ∧
      getAnthropicSummaryB envTextX "c" = some ("X", []) :=
  c4_summary_is_first_text envTextX "c" "X" (fun _ => rfl) (fun _ => ⟨[], rfl⟩)

/-- C5: when the remote API answers with a malformed body or with an empty
content list, `getAnthropicSummary` returns the fixed fallback string in
every version, and a run of `main` (version C) whose subprocesses all
succeed still completes and prints the report instead of terminating. -/
theorem c5_fallback_and_continue (env : Env) (content : String) (b : Body)
    (hb : b = Body.malformed
      ∨ b = Body.json (Json.obj [("content", Json.arr [])]))
    (hresp : ∀ p, env.anthropic p = some b)
    (hembed : ∀ s, ∃ v, env.ollamaEmbed s = Except.ok v)
    (hcmd : ∀ name args, (env.runCmd name args).isSome = true) :
    (getAnthropicSummaryC env content).1 = "Unable to generate summary" ∧
      getAnthropicSummaryB env content = some ("Unable to generate summary", []) ∧
      (mainC env).isDone = true := by
  refine ⟨?_, ?_, mainC_isDone_of_cmds_ok env hcmd⟩
  · unfold getAnthropicSummaryC compressLogs
    cases hc : env.ollamaGenerate (compressPrompt content) with
    | error e =>
        simpa using afterCompressC_fallback env content content b hb hresp hembed
    | ok cc =>
        simpa using afterCompressC_fallback env content cc b hb hresp hembed
  · unfold getAnthropicSummaryB
    rw [hresp]
    rcases hb with rfl | rfl <;> rfl

/-- Witness for C5 in the environment whose remote API answers with a
malformed body. -/
theorem c5_fallback_at_env :
    (getAnthropicSummaryC envMalformed "c").1 = "Unable to generate summary" ∧
      getAnthropicSummaryB envMalformed "c"
        = some ("Unable to generate summary", []) ∧
      (mainC envMalformed).isDone = true :=
  c5_fallback_and_continue envMalformed "c" Body.malformed (Or.inl rfl)
    (fun _ => rfl) (fun _ => ⟨[], rfl⟩) (fun _ _ => rfl)

/-- C9: when the local log-compression call fails, `getAnthropicSummary`
(version C) logs the compression error and produces exactly the summary it
would produce had compression succeeded returning the original content
unchanged: the remaining pipeline steps run on the uncompressed original
content and the call still returns a value, so execution continues. -/
theorem c9_compress_error_falls_back (env : Env) (content e : String)
    (h : env.ollamaGenerate (compressPrompt content) = Except.error e) :
    (getAnthropicSummaryC env content).1 =
        (getAnthropicSummaryC
          { env with ollamaGenerate := fun _ => Except.ok content } content).1 ∧
      ("Error compressing logs: " ++ e) ∈ (getAnthropicSummaryC env content).2 := by
  unfold getAnthropicSummaryC compressLogs
  rw [h]
  exact ⟨rfl, List.mem_cons_self _ _⟩

/-- Witness for C9 in the environment whose compression endpoint fails. -/
theorem c9_fallback_at_env :
    envCompressFail.ollamaGenerate (compressPrompt "c") = Except.error "boom" ∧
      ((getAnthropicSummaryC envCompressFail "c").1 =
          (getAnthropicSummaryC
            { envCompressFail with ollamaGenerate := fun _ => Except.ok "c" } "c").1 ∧
        ("Error compressing logs: " ++ "boom")
          ∈ (getAnthropicSummaryC envCompressFail "c").2) :=
  ⟨rfl, c9_compress_error_falls_back envCompressFail "c" "boom" rfl⟩

/-- C8 (amended): in the two part_000 revisions, when at least one
positional argument is present the first one replaces the base branch name
obtained from the version-control query and is used (as `chooseBase`) in
the commit-log command and in both diff commands; with no argument the
queried default, stripped of its `origin/` prefix, is used. The trace of
version C `main` shows the selected base in every subsequent command. -/
theorem c8_argument_overrides_base (env : Env) (o1 o2 : String)
    (h1 : env.runCmd "git" ["rev-parse", "--abbrev-ref", "HEAD"] = some o1)
    (h2 : env.runCmd "git" ["rev-parse", "--abbrev-ref", "origin/HEAD"] = some o2)
    (hcmd : ∀ name args, (env.runCmd name args).isSome = true) :
    (mainC env).cmds =
        [("git", ["rev-parse", "--abbrev-ref", "HEAD"]),
         ("git", ["rev-parse", "--abbrev-ref", "origin/HEAD"]),
         ("git", ["log", chooseBase env.args (trimSpace o2) ++ ".." ++ (trimSpace o1),
           "--pretty=format:%h - %s"]),
         ("git", ["diff", chooseBase env.args (trimSpace o2) ++ ".." ++ (trimSpace o1)]),
         ("git", ["diff", "--stat", chooseBase env.args (trimSpace o2) ++ ".." ++ (trimSpace o1)])] ∧
      (∀ a rest, chooseBase (a :: rest) (trimSpace o2) = a) ∧
      chooseBase [] (trimSpace o2) = trimPre (trimSpace o2) "origin/" := by
  obtain ⟨o3, h3⟩ := Option.isSome_iff_exists.mp
    (hcmd "git" ["log", chooseBase env.args (trimSpace o2) ++ ".." ++ (trimSpace o1),
      "--pretty=format:%h - %s"])
  obtain ⟨o4, h4⟩ := Option.isSome_iff_exists.mp
    (hcmd "git" ["diff", chooseBase env.args (trimSpace o2) ++ ".." ++ (trimSpace o1)])
  obtain ⟨o5, h5⟩ := Option.isSome_iff_exists.mp
    (hcmd "git" ["diff", "--stat", chooseBase env.args (trimSpace o2) ++ ".." ++ (trimSpace o1)])
  refine ⟨?_, fun a rest => rfl, rfl⟩
  rw [mainC_eval_ok env (trimSpace o1) (trimSpace o2) (trimSpace o3) (trimSpace o4) (trimSpace o5)
    (getCommandOutput_ok _ _ _ _ h1) (getCommandOutput_ok _ _ _ _ h2)
    (getCommandOutput_ok _ _ _ _ h3) (getCommandOutput_ok _ _ _ _ h4)
    (getCommandOutput_ok _ _ _ _ h5)]
  split <;> rfl

/-- Witness for C8 (amended) in the environment with positional argument
`dev`, where the selected base branch is `dev`. -/
theorem c8_override_at_env :
    (mainC envArgUsed).cmds =
        [("git", ["rev-parse", "--abbrev-ref", "HEAD"]),
         ("git", ["rev-parse", "--abbrev-ref", "origin/HEAD"]),
         ("git", ["log", chooseBase envArgUsed.args (trimSpace "out") ++ ".." ++ (trimSpace "out"),
           "--pretty=format:%h - %s"]),
         ("git", ["diff", chooseBase envArgUsed.args (trimSpace "out") ++ ".." ++ (trimSpace "out")]),
         ("git", ["diff", "--stat",
           chooseBase envArgUsed.args (trimSpace "out") ++ ".." ++ (trimSpace "out")])] ∧
      (∀ a rest, chooseBase (a :: rest) (trimSpace "out") = a) ∧
      chooseBase [] (trimSpace "out") = trimPre (trimSpace "out") "origin/" :=
  c8_argument_overrides_base envArgUsed "out" "out" rfl rfl (fun _ _ => rfl)

/-- Counterexample for C8 as stated: in the `src/main.go` revision the
command-line arguments are never consulted. In the environment with
positional argument `other`, current branch `feat` and default remote
branch `origin/main`, every commit-log and diff command of version A uses
the queried default `main`, not the given argument. -/
theorem c8_mainA_ignores_argument :
    envArgIgnored.args = ["other"] ∧
      (mainA envArgIgnored).cmds =
        [("git", ["rev-parse", "--abbrev-ref", "HEAD"]),
         ("git", ["rev-parse", "--abbrev-ref", "origin/HEAD"]),
         ("git", ["log", "main..feat", "--pretty=format:%h - %s"]),
         ("git", ["diff", "--stat", "main..feat"])] ∧
      ¬ ("git", ["log", "other..feat", "--pretty=format:%h - %s"])
          ∈ (mainA envArgIgnored).cmds := by
  refine ⟨rfl, rfl, ?_⟩
  intro hmem
  rw [show (mainA envArgIgnored).cmds =
    [("git", ["rev-parse", "--abbrev-ref", "HEAD"]),
     ("git", ["rev-parse", "--abbrev-ref", "origin/HEAD"]),
     ("git", ["log", "main..feat", "--pretty=format:%h - %s"]),
     ("git", ["diff", "--stat", "main..feat"])] from rfl] at hmem
  simp at hmem

/-- C1: in the environment where the commit-log output is empty (commit
text of length 0, below every candidate threshold), version B of `main`
invokes the remote summarizer — its guard `len(commits) > 2` calls the API
exactly when the commit text is small — while version C skips the call and
interpolates the empty summary. The claim as stated fails on version B and
holds on version C with threshold 0. -/
theorem c1_flipped_guard_on_empty_commits :
    envNoCommits.runCmd "git" ["log", "main..main", "--pretty=format:%h - %s"]
        = some "" ∧
      (mainB envNoCommits).calledSummarizer = true ∧
      (mainC envNoCommits).calledSummarizer = false ∧
      (mainC envNoCommits).summaryVal = "" := by
  refine ⟨rfl, ?_, ?_, ?_⟩ <;> rfl
